import Mathlib

/-!
Shallow embedding of the conversation-memory core of the emotion-support bot
(`src/memory.py`) and of its webhook text handler (`main.py`,
`handle_text_message`).  Message dicts become the `Msg` structure, the two
`defaultdict` fields of `Memory` become total functions with the Python
default values (`[]` and `""`), and the handler's control flow — including
the `raise BaseException(...)` / `except Exception` interaction — is made
explicit with the `PyError` type.
-/

/-- A chat message dict `{'role': ..., 'content': ...}` as built in
`src/memory.py` (roles are plain strings in the source: `'system'`,
`'user'`, or whatever role the model reply carries). -/
structure Msg where
  role : String
  content : String
deriving DecidableEq, Repr

/-- Python `str.strip()`s whitespace test, restricted to the ASCII whitespace
characters (space, tab, newline, carriage return, vertical tab, form feed). -/
def isPySpace (c : Char) : Bool :=
  c = ' ' || c = '\t' || c = '\n' || c = '\r' || c = '\x0b' || c = '\x0c'

/-- Python `str.strip()` on a list of code points: drop whitespace from the
front, then from the back. -/
def pyStripL (l : List Char) : List Char :=
  ((l.dropWhile isPySpace).reverse.dropWhile isPySpace).reverse

/-- Python `str.strip()` on strings. -/
def pyStrip (s : String) : String := ⟨pyStripL s.data⟩

/-- Python `p + s` test of `s.startswith(p)`, code point by code point. -/
def pyStartsWith : List Char → List Char → Bool
  | [], _ => true
  | _ :: _, [] => false
  | p :: ps, s :: ss => p = s && pyStartsWith ps ss

/-- Python slice `l[-k:]`.  For `k > 0` this is the last `min k (length l)`
elements; for `k = 0` Python reads `l[-0:]` as `l[0:]`, the whole list. -/
def pyLastSlice (k : Nat) (l : List α) : List α :=
  if k = 0 then l else l.drop (l.length - k)

/-- The state of `Memory` (`src/memory.py`): `storage = defaultdict(list)`
and `system_messages = defaultdict(str)` become total maps with the Python
default values `[]` and `""`. -/
structure Memory where
  storage : String → List Msg
  system_messages : String → String
  default_system_message : String
  memory_message_count : Nat

/-- `Memory.__init__(system_message, memory_message_count)`. -/
def Memory.make (system_message : String) (memory_message_count : Nat) : Memory :=
  { storage := fun _ => []
    system_messages := fun _ => ""
    default_system_message := system_message
    memory_message_count := memory_message_count }

/-- `Memory._initialize(user_id)`: store a single system message for
`user_id`, with content `self.default_system_message` (the per-user entry of
`self.system_messages` is not consulted). -/
def Memory.initStorage (m : Memory) (user_id : String) : Memory :=
  { m with storage := fun u =>
      if u = user_id then [{ role := "system", content := m.default_system_message }]
      else m.storage u }

/-- The list computed by `Memory._drop_message(user_id)` from a history `h`:
if `len(h) >= (memory_message_count + 1) * 2 + 1`, the value
`[h[0]] + h[-(memory_message_count * 2):]`; otherwise `h` itself.
(`h.take 1` equals `[h[0]]` whenever `h` is nonempty, which the guard
ensures: the threshold is at least 3.) -/
def dropMessageList (n : Nat) (h : List Msg) : List Msg :=
  if (n + 1) * 2 + 1 ≤ h.length then h.take 1 ++ pyLastSlice (n * 2) h else h

/-- `Memory._drop_message(user_id)`: a pure computation on the stored
history; the caller receives the value as the return value. -/
def Memory.drop_message (m : Memory) (user_id : String) : List Msg :=
  dropMessageList m.memory_message_count (m.storage user_id)

/-- `Memory.remove(user_id)`: `self.storage[user_id] = []`. -/
def Memory.remove (m : Memory) (user_id : String) : Memory :=
  { m with storage := fun u => if u = user_id then [] else m.storage u }

/-- `Memory.change_system_message(user_id, system_message)`: record the
override in `self.system_messages[user_id]`, then `self.remove(user_id)`. -/
def Memory.change_system_message (m : Memory) (user_id system_message : String) : Memory :=
  Memory.remove
    { m with system_messages := fun u =>
        if u = user_id then system_message else m.system_messages u }
    user_id

/-- `Memory.append(user_id, role, content)`: lazily materialize the history
with the system message, push `{role, content}`, then evaluate
`self._drop_message(user_id)`.  The source discards that return value — the
statement `self._drop_message(user_id)` has no side effect — so the stored
history is exactly the pushed one. -/
def Memory.append (m : Memory) (user_id role content : String) : Memory :=
  let m1 := if m.storage user_id = [] then m.initStorage user_id else m
  let m2 : Memory :=
    { m1 with storage := fun u =>
        if u = user_id then m1.storage user_id ++ [{ role := role, content := content }]
        else m1.storage u }
  let _ := m2.drop_message user_id
  m2

/-- `Memory.get(user_id)`: return `self.storage[user_id]`. -/
def Memory.get (m : Memory) (user_id : String) : List Msg :=
  m.storage user_id

/-- Fold a list of `(role, content)` pairs into successive `append` calls
for one user. -/
def appendSeq (u : String) (m : Memory) : List (String × String) → Memory
  | [] => m
  | rc :: rest => appendSeq u (m.append u rc.1 rc.2) rest

/-- Fold a list of `(user_id, role, content)` triples into successive
`append` calls. -/
def applyAppends (m : Memory) : List (String × String × String) → Memory
  | [] => m
  | op :: rest => applyAppends (m.append op.1 op.2.1 op.2.2) rest

/-- The stored history of every user is empty or starts with a system
message. -/
def sysHeadInv (m : Memory) : Prop :=
  ∀ u, m.storage u = [] ∨ ∃ c t, m.storage u = Msg.mk "system" c :: t

/-- A list of code points with no leading and no trailing whitespace. -/
def noSurroundWS (l : List Char) : Prop :=
  (∀ c, l.head? = some c → isPySpace c = false) ∧
  (∀ c, l.getLast? = some c → isPySpace c = false)

/-- Modelled from the spec: the `ChatClient` boundary of §4.3,
`complete(messages, modelEngine) -> Result<assistantMessage, ClassifiedError>`.
The source's `chat_completions` is an HTTP wrapper and
`src/utils.get_role_and_content` is not in the source tree; per the spec a
successful call yields the assistant `Message` (its role and content), a
failed call yields the classified error text (`error_message`). -/
abbrev ChatOutcome := Except String Msg

/-- The command token `'/系統訊息'` (5 code points) tested by
`text.startswith(...)` in `handle_text_message`. -/
def cmdChars : List Char := "/系統訊息".data

/-- A raised Python exception, split by what `except Exception` catches:
`PyError.exception` is an instance of a subclass of `Exception`;
`PyError.base` is a bare `BaseException`, which `except Exception` does NOT
catch (it propagates out of the handler). -/
inductive PyError where
  | base (message : String)
  | exception (message : String)
deriving DecidableEq

/-- The `except Exception` branch of `handle_text_message`: classify the
error text by `str(error).startswith(...)` and produce the fallback reply. -/
def classifyError (e : String) : String :=
  if pyStartsWith "Incorrect API key provided".data e.data then
    "OpenAI API Token 有誤，請重新註冊。"
  else if pyStartsWith "That model is currently overloaded with other requests.".data e.data then
    "已超過負荷，請稍後再試"
  else
    "系統遇到一些錯誤，請截圖提供以下訊息給管理員。\n" ++ e

/-- The `try` block of `handle_text_message`, on the stripped text: either
the command path (`change_system_message` + confirmation `'輸入成功'`), or
append the user turn, call the model, and on failure
`raise BaseException(error_message)`; on success extract role and content,
append the assistant turn, and reply with the content.  Returns the memory
state as mutated so far together with the block's outcome. -/
def tryBlock (mem : Memory) (user_id : String) (text : String) (outcome : ChatOutcome) :
    Memory × Except PyError String :=
  if pyStartsWith cmdChars text.data then
    (mem.change_system_message user_id (pyStrip ⟨text.data.drop 5⟩), Except.ok "輸入成功")
  else
    let mem1 := mem.append user_id "user" text
    match outcome with
    | Except.error error_message => (mem1, Except.error (PyError.base error_message))
    | Except.ok am =>
        let mem2 := mem1.append user_id am.role am.content
        (mem2, Except.ok am.content)

/-- `handle_text_message(event)` (`main.py`): strip the inbound text, run the
`try` block, catch `Exception` (and only `Exception`) into the classified
fallback, then `reply_message`.  The second component is the reply actually
sent: `none` means the handler terminated on an uncaught exception before
reaching `line_bot_api.reply_message`. -/
def handle_text_message (mem : Memory) (user_id raw : String) (outcome : ChatOutcome) :
    Memory × Option String :=
  let text := pyStrip raw
  match tryBlock mem user_id text outcome with
  | (mem1, Except.ok reply) => (mem1, some reply)
  | (mem1, Except.error (PyError.exception e)) => (mem1, some (classifyError e))
  | (mem1, Except.error (PyError.base _)) => (mem1, none)

/-- Unfolding of `append` at the touched user: the stored history becomes
the (lazily materialized) old history with the new message pushed. -/
theorem Memory.append_storage_self (m : Memory) (u r c : String) :
    (m.append u r c).storage u =
      (if m.storage u = [] then [Msg.mk "system" m.default_system_message]
       else m.storage u) ++ [Msg.mk r c] := by
  by_cases h : m.storage u = []
  · simp [Memory.append, Memory.initStorage, h]
  · simp [Memory.append, h]

/-- `append` for user `u` leaves every other user's stored history alone. -/
theorem Memory.append_storage_other (m : Memory) (u r c v : String) (h : v ≠ u) :
    (m.append u r c).storage v = m.storage v := by
  by_cases h0 : m.storage u = []
  · simp [Memory.append, Memory.initStorage, h0, h]
  · simp [Memory.append, h0, h]

/-- `append` never touches the system-message overrides. -/
theorem Memory.append_system_messages (m : Memory) (u r c : String) :
    (m.append u r c).system_messages = m.system_messages := by
  by_cases h0 : m.storage u = []
  · simp [Memory.append, Memory.initStorage, h0]
  · simp [Memory.append, h0]

/-- After an `append` the touched history is nonempty. -/
theorem Memory.append_storage_ne_nil (m : Memory) (u r c : String) :
    (m.append u r c).storage u ≠ [] := by
  rw [Memory.append_storage_self]
  simp

/-- On an already-materialized history, `append` grows the length by one. -/
theorem Memory.append_length_of_ne_nil (m : Memory) (u r c : String)
    (h : m.storage u ≠ []) :
    ((m.append u r c).storage u).length = (m.storage u).length + 1 := by
  rw [Memory.append_storage_self, if_neg h]
  simp

/-- One `append` preserves `sysHeadInv`. -/
theorem append_sysHeadInv (m : Memory) (u r c : String) (h : sysHeadInv m) :
    sysHeadInv (m.append u r c) := by
  intro v
  by_cases hv : v = u
  · subst hv
    rw [Memory.append_storage_self]
    rcases h v with h0 | ⟨c0, t0, h0⟩
    · rw [h0]
      exact Or.inr ⟨m.default_system_message, [Msg.mk r c], by simp⟩
    · rw [h0, if_neg (by simp)]
      exact Or.inr ⟨c0, t0 ++ [Msg.mk r c], by simp⟩
  · rw [Memory.append_storage_other m u r c v hv]
    exact h v

/-- Any sequence of `append` calls preserves `sysHeadInv`. -/
theorem applyAppends_sysHeadInv (ops : List (String × String × String)) (m : Memory)
    (h : sysHeadInv m) : sysHeadInv (applyAppends m ops) := by
  induction ops generalizing m with
  | nil => exact h
  | cons op rest ih => exact ih _ (append_sysHeadInv _ _ _ _ h)

/-- C1: `append` evaluates `_drop_message` but discards its return value, so
the stored history is never replaced.  At `memory_message_count = 2`, after
six appends to a fresh user the stored history has 7 elements, which meets
the trim threshold `(2 + 1) * 2 + 1 = 7`; the claim says the stored history
then equals `[history[0]] + history[-4:]` (5 elements, the value
`_drop_message` computes), but the stored history still has all 7 elements
and differs from that value. -/
theorem C1_trim_discarded :
    7 ≤ ((appendSeq "u" (Memory.make "D" 2)
        [("user", "a1"), ("assistant", "b1"), ("user", "a2"),
         ("assistant", "b2"), ("user", "a3"), ("assistant", "b3")]).storage "u").length ∧
    ((appendSeq "u" (Memory.make "D" 2)
        [("user", "a1"), ("assistant", "b1"), ("user", "a2"),
         ("assistant", "b2"), ("user", "a3"), ("assistant", "b3")]).storage "u").length = 7 ∧
    ((appendSeq "u" (Memory.make "D" 2)
        [("user", "a1"), ("assistant", "b1"), ("user", "a2"),
         ("assistant", "b2"), ("user", "a3"), ("assistant", "b3")]).drop_message "u").length = 5 ∧
    (appendSeq "u" (Memory.make "D" 2)
        [("user", "a1"), ("assistant", "b1"), ("user", "a2"),
         ("assistant", "b2"), ("user", "a3"), ("assistant", "b3")]).storage "u" ≠
      (appendSeq "u" (Memory.make "D" 2)
        [("user", "a1"), ("assistant", "b1"), ("user", "a2"),
         ("assistant", "b2"), ("user", "a3"), ("assistant", "b3")]).drop_message "u" := by
  refine ⟨by decide, by decide, by decide, by decide⟩

/-- C2: `change_system_message(u, "X")` records the override and clears the
history (so `get u = []`), but the next `append` reinitializes the history
from `default_system_message`, not from the recorded override: with default
`"D"` the result is `[{system, "D"}, {user, "hi"}]`, not
`[{system, "X"}, {user, "hi"}]` as claimed. -/
theorem C2_override_unused :
    ((Memory.make "D" 2).change_system_message "u" "X").get "u" = [] ∧
    ((Memory.make "D" 2).change_system_message "u" "X").system_messages "u" = "X" ∧
    (((Memory.make "D" 2).change_system_message "u" "X").append "u" "user" "hi").storage "u" =
      [Msg.mk "system" "D", Msg.mk "user" "hi"] ∧
    (((Memory.make "D" 2).change_system_message "u" "X").append "u" "user" "hi").storage "u" ≠
      [Msg.mk "system" "X", Msg.mk "user" "hi"] := by
  refine ⟨by decide, by decide, by decide, by decide⟩

/-- C3: starting from a fresh `Memory` (every history empty), after any
sequence of `append` calls the stored history of every user is either empty
or has a first element with role `system`. -/
theorem C3_system_first (d : String) (n : Nat) (ops : List (String × String × String))
    (u : String) :
    (applyAppends (Memory.make d n) ops).storage u = [] ∨
    ∃ c t, (applyAppends (Memory.make d n) ops).storage u = Msg.mk "system" c :: t :=
  applyAppends_sysHeadInv ops (Memory.make d n) (fun _ => Or.inl rfl) u

/-- C4: when the model call fails, the handler executes
`raise BaseException(error_message)`, and `except Exception` does not catch
`BaseException`, so the handler terminates before `reply_message`: for a
failing outcome the reply is `none` — no reply is sent — even though
`classifyError` has a dedicated fallback for exactly this error text.  This
refutes the claim that every inbound text message receives exactly one
reply. -/
theorem C4_no_reply_on_failure :
    (handle_text_message (Memory.make "D" 2) "u" "hello"
        (Except.error "Incorrect API key provided: sk-x")).2 = none ∧
    classifyError "Incorrect API key provided: sk-x" =
      "OpenAI API Token 有誤，請重新註冊。" := by
  refine ⟨by decide, by decide⟩

/-- C5: on a non-command turn whose model call fails, the handler's final
memory state is exactly the one after appending the user's (stripped)
message: the user turn stays recorded and no assistant message is appended. -/
theorem C5_history_on_failure (mem : Memory) (u raw em : String)
    (h : pyStartsWith cmdChars (pyStripL raw.data) = false) :
    (handle_text_message mem u raw (Except.error em)).1 =
      mem.append u "user" (pyStrip raw) := by
  unfold handle_text_message tryBlock
  simp [pyStrip, h]

/-- Witness for C5 at a concrete non-command input. -/
theorem C5_history_on_failure_witness :
    pyStartsWith cmdChars (pyStripL " hi ".data) = false ∧
    (handle_text_message (Memory.make "D" 2) "u" " hi " (Except.error "boom")).1 =
      (Memory.make "D" 2).append "u" "user" (pyStrip " hi ") :=
  ⟨by decide, C5_history_on_failure (Memory.make "D" 2) "u" " hi " "boom" (by decide)⟩

/-- Appending a list of messages to an already-materialized history grows its
length by the number of messages. -/
theorem appendSeq_length (u : String) (msgs : List (String × String)) (m : Memory)
    (hne : m.storage u ≠ []) :
    ((appendSeq u m msgs).storage u).length = (m.storage u).length + msgs.length := by
  induction msgs generalizing m with
  | nil => simp [appendSeq]
  | cons rc rest ih =>
      rw [show appendSeq u m (rc :: rest) = appendSeq u (m.append u rc.1 rc.2) rest from rfl]
      rw [ih _ (Memory.append_storage_ne_nil m u rc.1 rc.2)]
      rw [Memory.append_length_of_ne_nil m u rc.1 rc.2 hne]
      simp
      omega

/-- C6 counterexample: with `memoryMessageCount = 0`, appending
`2 * 0 + 3 = 3` non-system messages to a fresh user leaves a stored history
of length 4, not `2 * 0 + 1 = 1` as the claim states (the trim result is
discarded by `append`). -/
theorem C6_counterexample :
    ((appendSeq "u" (Memory.make "D" 0)
        [("user", "a"), ("assistant", "b"), ("user", "c")]).storage "u").length ≠
      2 * 0 + 1 := by
  decide

/-- C6 (amended): for every `N = memoryMessageCount ≥ 0` and a fresh user,
after appending `2N + 3` messages one at a time the final stored history
length equals `2N + 4` (1 system message plus all `2N + 3` appended
messages): `append` discards the `_drop_message` result, so the history is
never truncated. -/
theorem C6_no_trim (d u : String) (n : Nat) (msgs : List (String × String))
    (h : msgs.length = 2 * n + 3) :
    ((appendSeq u (Memory.make d n) msgs).storage u).length = 2 * n + 4 := by
  cases msgs with
  | nil => simp at h
  | cons rc rest =>
      rw [show appendSeq u (Memory.make d n) (rc :: rest) =
            appendSeq u ((Memory.make d n).append u rc.1 rc.2) rest from rfl]
      rw [appendSeq_length u rest _ (Memory.append_storage_ne_nil _ _ _ _)]
      have h1 : (((Memory.make d n).append u rc.1 rc.2).storage u).length = 2 := by
        rw [Memory.append_storage_self]
        simp [Memory.make]
      rw [h1]
      simp at h
      omega

/-- Witness for C6 (amended) at `N = 0` with a concrete list of 3 messages. -/
theorem C6_no_trim_witness :
    ([(("user" : String), ("a" : String)), ("assistant", "b"), ("user", "c")]).length =
      2 * 0 + 3 ∧
    ((appendSeq "u" (Memory.make "D" 0)
        [("user", "a"), ("assistant", "b"), ("user", "c")]).storage "u").length = 2 * 0 + 4 :=
  ⟨by decide, C6_no_trim "D" "u" 0 [("user", "a"), ("assistant", "b"), ("user", "c")]
    (by decide)⟩

/-- C7: every operation applied to user `A` — `append`, `get` (which reads
without mutating), `change_system_message`, `remove` — leaves the stored
history and the system-message override of any other user `B` unchanged. -/
theorem C7_isolation (m : Memory) (A B r c s : String) (h : A ≠ B) :
    ((m.append A r c).storage B = m.storage B ∧
      (m.append A r c).system_messages B = m.system_messages B) ∧
    m.get A = m.storage A ∧
    ((m.change_system_message A s).storage B = m.storage B ∧
      (m.change_system_message A s).system_messages B = m.system_messages B) ∧
    (m.remove A).storage B = m.storage B ∧
    (m.remove A).system_messages B = m.system_messages B := by
  have hBA : B ≠ A := Ne.symm h
  refine ⟨⟨Memory.append_storage_other m A r c B hBA, ?_⟩, rfl, ⟨?_, ?_⟩, ?_, rfl⟩
  · rw [Memory.append_system_messages]
  · simp [Memory.change_system_message, Memory.remove, hBA]
  · simp [Memory.change_system_message, Memory.remove, hBA]
  · simp [Memory.remove, hBA]

/-- Witness for C7 at concrete distinct users. -/
theorem C7_isolation_witness :
    ("a" : String) ≠ "b" ∧
    ((((Memory.make "D" 2).append "a" "user" "hi").storage "b" =
        (Memory.make "D" 2).storage "b" ∧
      ((Memory.make "D" 2).append "a" "user" "hi").system_messages "b" =
        (Memory.make "D" 2).system_messages "b") ∧
    (Memory.make "D" 2).get "a" = (Memory.make "D" 2).storage "a" ∧
    (((Memory.make "D" 2).change_system_message "a" "S").storage "b" =
        (Memory.make "D" 2).storage "b" ∧
      ((Memory.make "D" 2).change_system_message "a" "S").system_messages "b" =
        (Memory.make "D" 2).system_messages "b") ∧
    ((Memory.make "D" 2).remove "a").storage "b" = (Memory.make "D" 2).storage "b" ∧
    ((Memory.make "D" 2).remove "a").system_messages "b" =
      (Memory.make "D" 2).system_messages "b") :=
  ⟨by decide, C7_isolation (Memory.make "D" 2) "a" "b" "user" "hi" "S" (by decide)⟩

/-- When the trim threshold is not met, `_drop_message` returns the history
unchanged. -/
theorem dropMessageList_of_short (n : Nat) (h : List Msg)
    (hc : ¬ (n + 1) * 2 + 1 ≤ h.length) : dropMessageList n h = h := by
  simp [dropMessageList, hc]

/-- C8 counterexample: with `memoryMessageCount = 0` the trim computation is
not idempotent.  On a 3-element history the threshold `(0 + 1) * 2 + 1 = 3`
is met, and the Python slice `history[-0:]` is the whole history, so one
application yields `[h[0]] + h` (4 elements) and a second application yields
a different, 5-element list. -/
theorem C8_counterexample :
    dropMessageList 0 (dropMessageList 0
        [Msg.mk "system" "s", Msg.mk "user" "a", Msg.mk "assistant" "b"]) ≠
      dropMessageList 0 [Msg.mk "system" "s", Msg.mk "user" "a", Msg.mk "assistant" "b"] := by
  decide

/-- C8 (amended): for every `memoryMessageCount ≥ 1`, the trim computation is
idempotent: applying it twice with no intervening append yields the same
result as applying it once.  (At `memoryMessageCount = 0` it fails, because
the slice `history[-0:]` is the whole history.) -/
theorem C8_trim_idem (n : Nat) (h : List Msg) (hn : 1 ≤ n) :
    dropMessageList n (dropMessageList n h) = dropMessageList n h := by
  by_cases hc : (n + 1) * 2 + 1 ≤ h.length
  · have hk : ¬ n * 2 = 0 := by omega
    have hlen : (dropMessageList n h).length = 1 + n * 2 := by
      simp [dropMessageList, pyLastSlice, hc, hk]
      omega
    exact dropMessageList_of_short n _ (by rw [hlen]; omega)
  · rw [dropMessageList_of_short n h hc]
    exact dropMessageList_of_short n h hc

/-- Witness for C8 (amended) at `memoryMessageCount = 1` on a 5-element
history, which meets the trim threshold `(1 + 1) * 2 + 1 = 5`. -/
theorem C8_trim_idem_witness :
    1 ≤ 1 ∧
    dropMessageList 1 (dropMessageList 1
        [Msg.mk "system" "s", Msg.mk "user" "a", Msg.mk "assistant" "b",
         Msg.mk "user" "c", Msg.mk "assistant" "d"]) =
      dropMessageList 1
        [Msg.mk "system" "s", Msg.mk "user" "a", Msg.mk "assistant" "b",
         Msg.mk "user" "c", Msg.mk "assistant" "d"] :=
  ⟨by decide, C8_trim_idem 1
    [Msg.mk "system" "s", Msg.mk "user" "a", Msg.mk "assistant" "b",
     Msg.mk "user" "c", Msg.mk "assistant" "d"] (by decide)⟩

/-- The head of `dropWhile p l`, when it exists, fails `p`. -/
theorem head_dropWhile_not (p : α → Bool) (l : List α) (c : α)
    (h : (l.dropWhile p).head? = some c) : p c = false := by
  induction l with
  | nil => simp [List.dropWhile] at h
  | cons a t ih =>
      rw [List.dropWhile_cons] at h
      by_cases hp : p a = true
      · rw [if_pos hp] at h
        exact ih h
      · rw [if_neg hp] at h
        simp at h
        rw [← h]
        exact Bool.eq_false_iff.mpr hp

/-- When `dropWhile p l` is nonempty it is a suffix of `l` and keeps `l`'s
last element. -/
theorem getLast_dropWhile (p : α → Bool) (l : List α)
    (h : l.dropWhile p ≠ []) : (l.dropWhile p).getLast? = l.getLast? := by
  induction l with
  | nil => simp [List.dropWhile] at h
  | cons a t ih =>
      rw [List.dropWhile_cons] at h ⊢
      by_cases hp : p a = true
      · rw [if_pos hp] at h ⊢
        rw [ih h]
        cases t with
        | nil => simp [List.dropWhile] at h
        | cons b t' => rw [List.getLast?_cons_cons]
      · rw [if_neg hp]

/-- Python `strip` leaves no surrounding whitespace. -/
theorem noSurroundWS_pyStripL (l : List Char) : noSurroundWS (pyStripL l) := by
  constructor
  · intro c hc
    unfold pyStripL at hc
    rw [List.head?_reverse] at hc
    by_cases hne :
        ((l.dropWhile isPySpace).reverse.dropWhile isPySpace) = []
    · rw [hne] at hc
      simp at hc
    · rw [getLast_dropWhile isPySpace _ hne, List.getLast?_reverse] at hc
      exact head_dropWhile_not isPySpace _ c hc
  · intro c hc
    unfold pyStripL at hc
    rw [List.getLast?_reverse] at hc
    exact head_dropWhile_not isPySpace _ c hc

/-- C9: the handler strips the inbound text before command matching and
before storing it: on every non-command turn (the command test itself is on
the stripped text) the stored history contains the user turn with content
`pyStrip raw`, and a stripped string has no leading or trailing
whitespace. -/
theorem C9_strip (mem : Memory) (u raw : String) (outcome : ChatOutcome)
    (h : pyStartsWith cmdChars (pyStripL raw.data) = false) :
    noSurroundWS (pyStrip raw).data ∧
    ∃ pre post, (handle_text_message mem u raw outcome).1.storage u =
      pre ++ Msg.mk "user" (pyStrip raw) :: post := by
  constructor
  · exact noSurroundWS_pyStripL raw.data
  · cases outcome with
    | error em =>
        unfold handle_text_message tryBlock
        simp only [pyStrip, h, Bool.false_eq_true, if_false]
        rw [Memory.append_storage_self]
        exact ⟨if mem.storage u = [] then [Msg.mk "system" mem.default_system_message]
          else mem.storage u, [], by simp⟩
    | ok am =>
        unfold handle_text_message tryBlock
        simp only [pyStrip, h, Bool.false_eq_true, if_false]
        rw [Memory.append_storage_self,
          if_neg (Memory.append_storage_ne_nil mem u "user" _),
          Memory.append_storage_self]
        exact ⟨if mem.storage u = [] then [Msg.mk "system" mem.default_system_message]
          else mem.storage u, [Msg.mk am.role am.content], by simp⟩

/-- Witness for C9 at a concrete whitespace-padded input. -/
theorem C9_strip_witness :
    pyStartsWith cmdChars (pyStripL "  hi  ".data) = false ∧
    (noSurroundWS (pyStrip "  hi  ").data ∧
      ∃ pre post, (handle_text_message (Memory.make "D" 2) "u" "  hi  "
          (Except.ok (Msg.mk "assistant" "ok"))).1.storage "u" =
        pre ++ Msg.mk "user" (pyStrip "  hi  ") :: post) :=
  ⟨by decide, C9_strip (Memory.make "D" 2) "u" "  hi  "
    (Except.ok (Msg.mk "assistant" "ok")) (by decide)⟩

/-- `dropWhile` over an append whose first part is all dropped. -/
theorem dropWhile_append_all (p : α → Bool) (l1 l2 : List α)
    (h : ∀ a ∈ l1, p a = true) :
    (l1 ++ l2).dropWhile p = l2.dropWhile p := by
  induction l1 with
  | nil => simp
  | cons a t ih =>
      rw [List.cons_append, List.dropWhile_cons, if_pos (h a (by simp))]
      exact ih (fun x hx => h x (by simp [hx]))

/-- Stripping the command token followed by whitespace yields exactly the
command token. -/
theorem pyStripL_cmd_tail (tail : List Char) (h : ∀ c ∈ tail, isPySpace c = true) :
    pyStripL (cmdChars ++ tail) = cmdChars := by
  unfold pyStripL
  have hcmd : cmdChars = '/' :: "系統訊息".data := by decide
  have h1 : (cmdChars ++ tail).dropWhile isPySpace = cmdChars ++ tail := by
    rw [hcmd, List.cons_append, List.dropWhile_cons, if_neg (by decide)]
  rw [h1, List.reverse_append,
    dropWhile_append_all isPySpace tail.reverse cmdChars.reverse
      (fun a ha => h a (List.mem_reverse.mp ha)),
    show cmdChars.reverse.dropWhile isPySpace = cmdChars.reverse from by decide,
    List.reverse_reverse]

/-- C10: an inbound text that is exactly the command token `'/系統訊息'`, or
the token followed only by whitespace, sets the user's override to the empty
string, clears the user's stored history, and produces the command
confirmation reply — the empty override is accepted. -/
theorem C10_empty_override (mem : Memory) (u : String) (tail : List Char)
    (outcome : ChatOutcome) (h : ∀ c ∈ tail, isPySpace c = true) :
    (handle_text_message mem u ⟨cmdChars ++ tail⟩ outcome).2 = some "輸入成功" ∧
    (handle_text_message mem u ⟨cmdChars ++ tail⟩ outcome).1.system_messages u = "" ∧
    (handle_text_message mem u ⟨cmdChars ++ tail⟩ outcome).1.storage u = [] := by
  have hs : pyStripL (String.mk (cmdChars ++ tail)).data = cmdChars :=
    pyStripL_cmd_tail tail h
  unfold handle_text_message tryBlock
  simp only [pyStrip, hs]
  rw [if_pos (by decide : pyStartsWith cmdChars (String.mk cmdChars).data = true)]
  simp [Memory.change_system_message, Memory.remove,
    show (String.mk cmdChars).data.drop 5 = [] from by decide,
    show (⟨pyStripL []⟩ : String) = "" from by decide]

/-- Witness for C10 with the token followed by one space. -/
theorem C10_empty_override_witness :
    (∀ c ∈ [' '], isPySpace c = true) ∧
    ((handle_text_message (Memory.make "D" 2) "u" ⟨cmdChars ++ [' ']⟩
        (Except.error "e")).2 = some "輸入成功" ∧
      (handle_text_message (Memory.make "D" 2) "u" ⟨cmdChars ++ [' ']⟩
        (Except.error "e")).1.system_messages "u" = "" ∧
      (handle_text_message (Memory.make "D" 2) "u" ⟨cmdChars ++ [' ']⟩
        (Except.error "e")).1.storage "u" = []) :=
  ⟨by decide, C10_empty_override (Memory.make "D" 2) "u" [' '] (Except.error "e") (by decide)⟩
